import Mathlib

/-
  Verification of the scene-intersection and path-tracing engine of a Rust
  ray tracer, against its natural-language specification.

  The embedding mirrors the source files `vec3.rs`, `aabb.rs`, `hit.rs`,
  `bvh.rs`, `world.rs` and `main.rs`.  Real-number arithmetic (f64) is
  modelled over the rationals; transcendental operations (sqrt, ln, sin,
  cos) appear as explicit function parameters so that every definition
  stays executable, and random draws appear as explicit oracle
  parameters (the Rust code draws them from a thread-local RNG).
-/

namespace RTrace

/-- Vec3 from `vec3.rs`: three f64 components, modelled over ℚ. -/
structure Vec3 where
  x : ℚ
  y : ℚ
  z : ℚ
deriving DecidableEq

/-- Componentwise addition, `impl ops::Add for Vec3`. -/
def Vec3.add (a b : Vec3) : Vec3 := ⟨a.x + b.x, a.y + b.y, a.z + b.z⟩

/-- Componentwise subtraction, `impl ops::Sub for Vec3`. -/
def Vec3.sub (a b : Vec3) : Vec3 := ⟨a.x - b.x, a.y - b.y, a.z - b.z⟩

/-- Negation, `impl ops::Neg for Vec3`. -/
def Vec3.neg (a : Vec3) : Vec3 := ⟨-a.x, -a.y, -a.z⟩

/-- Componentwise (Hadamard) product, `impl ops::Mul for Vec3`. -/
def Vec3.hmulV (a b : Vec3) : Vec3 := ⟨a.x * b.x, a.y * b.y, a.z * b.z⟩

/-- Scalar multiple, `impl ops::Mul<Vec3> for f64`. -/
def Vec3.smulQ (q : ℚ) (a : Vec3) : Vec3 := ⟨q * a.x, q * a.y, q * a.z⟩

/-- Scalar division, `impl ops::Div<T> for Vec3`. -/
def Vec3.divQ (a : Vec3) (q : ℚ) : Vec3 := ⟨a.x / q, a.y / q, a.z / q⟩

instance : Add Vec3 := ⟨Vec3.add⟩

instance : Sub Vec3 := ⟨Vec3.sub⟩

instance : Neg Vec3 := ⟨Vec3.neg⟩

instance : Mul Vec3 := ⟨Vec3.hmulV⟩

instance : SMul ℚ Vec3 := ⟨Vec3.smulQ⟩

/-- Dot product from `vec3.rs`. -/
def Vec3.dot (a b : Vec3) : ℚ := a.x * b.x + a.y * b.y + a.z * b.z

/-- Squared length, `Vec3::length_squared` (`self.dot(self)`). -/
def Vec3.lengthSquared (a : Vec3) : ℚ := a.dot a

/-- Near-zero test from `vec3.rs` (every component below 1e-8 in absolute value). -/
def Vec3.nearZero (a : Vec3) : Bool :=
  |a.x| < 1/100000000 && |a.y| < 1/100000000 && |a.z| < 1/100000000

/-- Mirror reflection from `vec3.rs`: `*self - 2.0 * self.dot(normal) * *normal`. -/
def Vec3.reflect (a normal : Vec3) : Vec3 :=
  a - (2 * a.dot normal) • normal

/-- Unit vector `Vec3::unit` (`*self / self.length()`), with `sqrtFn` standing
for `f64::sqrt` in `length`. -/
def Vec3.unitWith (sqrtFn : ℚ → ℚ) (a : Vec3) : Vec3 :=
  a.divQ (sqrtFn a.lengthSquared)

/-- Snell refraction `Vec3::refract` from `vec3.rs`. -/
def Vec3.refractWith (sqrtFn : ℚ → ℚ) (uv n : Vec3) (etaiOverEtat : ℚ) : Vec3 :=
  let cosTheta := min ((Vec3.neg uv).dot n) 1
  let rOutPerp := etaiOverEtat • (uv + cosTheta • n)
  let rOutParallel := (-(sqrtFn (|1 - rOutPerp.lengthSquared|))) • n
  rOutPerp + rOutParallel

/-- Ray from `ray.rs` as used by `hit.rs`: origin, direction and a time. -/
structure Ray where
  origin : Vec3
  direction : Vec3
  time : ℚ
deriving DecidableEq

/-- Point along a ray: `Ray::at` (`origin + direction * t`). -/
def Ray.at (r : Ray) (t : ℚ) : Vec3 := r.origin + t • r.direction

/-- Axis-aligned bounding box from `aabb.rs`. -/
structure Aabb where
  minimum : Vec3
  maximum : Vec3
deriving DecidableEq

/-- One axis entry of the `intervals` array in `Aabb::hit`:
(slab minimum, slab maximum, ray origin component, ray direction component). -/
abbrev AxisData := ℚ × ℚ × ℚ × ℚ

/-- The slab loop of `Aabb::hit` (`aabb.rs` lines 51-64): per axis compute the
reciprocal direction, the two slab parameters (swapped when the reciprocal is
negative), tighten the running interval and fail as soon as it is empty.
(The function also flips a coin to print a progress marker; that side effect
has no bearing on the result and is omitted.) -/
def slabLoop : List AxisData → ℚ → ℚ → Bool
  | [], _, _ => true
  | (mn, mx, origin, dir) :: rest, tMin, tMax =>
    let invD := 1 / dir
    let s := if invD < 0 then ((mx - origin) * invD, (mn - origin) * invD)
             else ((mn - origin) * invD, (mx - origin) * invD)
    let tMin2 := if s.1 > tMin then s.1 else tMin
    let tMax2 := if s.2 < tMax then s.2 else tMax
    if tMax2 ≤ tMin2 then false else slabLoop rest tMin2 tMax2

/-- The three axis entries fed to the slab loop by `Aabb::hit`. -/
def Aabb.axes (b : Aabb) (r : Ray) : List AxisData :=
  [ (b.minimum.x, b.maximum.x, r.origin.x, r.direction.x),
    (b.minimum.y, b.maximum.y, r.origin.y, r.direction.y),
    (b.minimum.z, b.maximum.z, r.origin.z, r.direction.z) ]

/-- `Aabb::hit` from `aabb.rs`. -/
def Aabb.hit (b : Aabb) (r : Ray) (tMin tMax : ℚ) : Bool :=
  slabLoop (b.axes r) tMin tMax

/-- `Aabb::surrounding_box`: componentwise min of minima and max of maxima. -/
def Aabb.surroundingBox (box0 box1 : Aabb) : Aabb :=
  ⟨⟨min box0.minimum.x box1.minimum.x,
    min box0.minimum.y box1.minimum.y,
    min box0.minimum.z box1.minimum.z⟩,
   ⟨max box0.maximum.x box1.maximum.x,
    max box0.maximum.y box1.maximum.y,
    max box0.maximum.z box1.maximum.z⟩⟩

/-- Box inclusion, componentwise: `inner` lies inside `outer`. -/
def Aabb.sub (inner outer : Aabb) : Prop :=
  outer.minimum.x ≤ inner.minimum.x ∧ outer.minimum.y ≤ inner.minimum.y ∧
  outer.minimum.z ≤ inner.minimum.z ∧ inner.maximum.x ≤ outer.maximum.x ∧
  inner.maximum.y ≤ outer.maximum.y ∧ inner.maximum.z ≤ outer.maximum.z

/-- Membership of a point in a box (the meaning of "the box contains a hit
point" in the specification's invariant). -/
def Aabb.contains (b : Aabb) (p : Vec3) : Prop :=
  b.minimum.x ≤ p.x ∧ b.minimum.y ≤ p.y ∧ b.minimum.z ≤ p.z ∧
  p.x ≤ b.maximum.x ∧ p.y ≤ b.maximum.y ∧ p.z ≤ b.maximum.z

instance (inner outer : Aabb) : Decidable (Aabb.sub inner outer) := by
  unfold Aabb.sub; infer_instance

instance (b : Aabb) (p : Vec3) : Decidable (Aabb.contains b p) := by
  unfold Aabb.contains; infer_instance

/-- Effective lower slab parameter of one axis (value of `t0` in `Aabb::hit`
after the sign swap): used to characterise the slab loop. -/
def slabLo (a : AxisData) : ℚ :=
  let invD := 1 / a.2.2.2
  if invD < 0 then (a.2.1 - a.2.2.1) * invD else (a.1 - a.2.2.1) * invD

/-- Effective upper slab parameter of one axis (value of `t1` after the swap). -/
def slabHi (a : AxisData) : ℚ :=
  let invD := 1 / a.2.2.2
  if invD < 0 then (a.1 - a.2.2.1) * invD else (a.2.1 - a.2.2.1) * invD

/-- Running lower bound of the slab loop after all axes are folded in. -/
def foldLo (axes : List AxisData) (tMin : ℚ) : ℚ :=
  axes.foldl (fun acc a => max acc (slabLo a)) tMin

/-- Running upper bound of the slab loop after all axes are folded in. -/
def foldHi (axes : List AxisData) (tMax : ℚ) : ℚ :=
  axes.foldl (fun acc a => min acc (slabHi a)) tMax

/-- Hit record from `hit.rs`: point, oriented normal, ray parameter, texture
coordinates, front-face flag and a material reference (an `Arc` pointer,
modelled as an identifier into a material table). -/
structure HitRec where
  p : Vec3
  normal : Vec3
  t : ℚ
  u : ℚ
  v : ℚ
  frontFace : Bool
  mat : ℕ
deriving DecidableEq

/-- `HitRecord::create_normal_face`: the stored normal is the outward normal,
negated when the ray points along it; the flag records which case occurred. -/
def createNormalFace (r : Ray) (outwardNormal : Vec3) : Vec3 × Bool :=
  let frontFace : Bool := r.direction.dot outwardNormal < 0
  (if frontFace then outwardNormal else Vec3.neg outwardNormal, frontFace)

/-- A scene object as the BVH and the flat list see it: an intersection
routine `hit(ray, tMin, tMax)` and a bounding box (the claims under scrutiny
quantify over scenes of hittables that do have bounding boxes).  Every
concrete `Hittable` variant of `hit.rs` provides exactly this interface. -/
structure Leaf where
  hitFn : Ray → ℚ → ℚ → Option HitRec
  box : Aabb

/-- The step performed for one object inside `HittableList::hit`
(`hit.rs` lines 640-649): query the object against the current
`closest_so_far`; on a hit, record the hit and shrink the interval. -/
def listStep (r : Ray) (tMin : ℚ) (st : Bool × ℚ × HitRec) (object : Leaf) :
    Bool × ℚ × HitRec :=
  match object.hitFn r tMin st.2.1 with
  | some rec => (true, rec.t, rec)
  | none => st

/-- The throwaway record `HittableList::hit` builds before scanning
(`hit.rs` lines 629-639; its material is a scratch `Metal`, here id 0). -/
def dummyRec : HitRec := ⟨⟨0, 0, 0⟩, ⟨0, 0, 0⟩, 0, 0, 0, false, 0⟩

/-- `HittableList::hit` (`hit.rs` lines 625-655): scan all children keeping
the closest hit, iteratively shrinking `t_max`. -/
def listHit (objects : List Leaf) (r : Ray) (tMin tMax : ℚ) : Option HitRec :=
  let final := objects.foldl (listStep r tMin) (false, tMax, dummyRec)
  if final.1 then some final.2.2 else none

/-- One iteration of the box-merging loop in `HittableList::bounding_box`
(`hit.rs` lines 667-673): a missing running box or a missing child box turns
the result into "no box", otherwise the running box grows by
`surrounding_box`. -/
def lbbStep (acc other : Option Aabb) : Option Aabb :=
  match acc, other with
  | some temp, some o => some (Aabb.surroundingBox temp o)
  | _, _ => none

/-- `HittableList::bounding_box` (`hit.rs` lines 656-675) over the children's
optional boxes: none when empty, none as soon as one child has no box,
otherwise the running `surrounding_box`. -/
def listBoundingBox (boxes : List (Option Aabb)) : Option Aabb :=
  match boxes with
  | [] => none
  | first :: rest =>
    match first with
    | none => none
    | some tempBox => rest.foldl lbbStep (some tempBox)

/-- A BVH tree over scene objects.  `BvhNode::new` produces either a plain
child (a leaf of the tree) or an inner `BvhNode` with two children; the
node's stored box is the `surrounding_box` of its children's boxes
(`bvh.rs` lines 72-79), recomputed here by `bvhBox`. -/
inductive BvhTree where
  | leaf (obj : Leaf)
  | node (left right : BvhTree)

/-- The box stored in a BVH node: a leaf reports its own box, an inner node
the surrounding box of its children (exactly what the constructor stores). -/
def bvhBox : BvhTree → Aabb
  | .leaf obj => obj.box
  | .node left right => Aabb.surroundingBox (bvhBox left) (bvhBox right)

/-- The objects at the leaves of a BVH tree, in order. -/
def bvhLeaves : BvhTree → List Leaf
  | .leaf obj => [obj]
  | .node left right => bvhLeaves left ++ bvhLeaves right

/-- `BvhNode::hit` (`bvh.rs` lines 98-113): test the node's own box first;
then the left subtree; on a left hit re-test the right subtree with `t_max`
narrowed to the left hit's `t` and prefer a right hit; otherwise fall through
to the right subtree over the original interval. -/
def bvhHit : BvhTree → Ray → ℚ → ℚ → Option HitRec
  | .leaf obj, r, tMin, tMax => obj.hitFn r tMin tMax
  | .node left right, r, tMin, tMax =>
    if !(Aabb.surroundingBox (bvhBox left) (bvhBox right)).hit r tMin tMax then
      none
    else
      match bvhHit left r tMin tMax with
      | some leftRec =>
        match bvhHit right r tMin leftRec.t with
        | some rec => some rec
        | none => some leftRec
      | none => bvhHit right r tMin tMax

/-- The axis comparator `box_compare` of `BvhNode::new` (`bvh.rs` lines
26-47) on two boxes: `Less` when the first box's minimum is strictly smaller
along the chosen axis, otherwise `Greater` (`Equal` is never produced). -/
def boxCompare (axis : ℕ) (boxA boxB : Aabb) : Ordering :=
  match axis with
  | 0 => if boxA.minimum.x < boxB.minimum.x then .lt else .gt
  | 1 => if boxA.minimum.y < boxB.minimum.y then .lt else .gt
  | _ => if boxA.minimum.z < boxB.minimum.z then .lt else .gt

/-- The two-object case of `BvhNode::new` (`bvh.rs` lines 57-64): order the
pair by `box_compare` along the chosen axis and assign left/right. -/
def bvhNewTwo (a b : Leaf) (axis : ℕ) : BvhTree :=
  if boxCompare axis a.box b.box = .lt then .node (.leaf a) (.leaf b)
  else .node (.leaf b) (.leaf a)

/-- Model of `rng.gen_range(0..2)` in `BvhNode::new` (`bvh.rs` line 25): the
rand crate draws uniformly from the half-open range `0..2`, whose support is
the two values 0 and 1; an arbitrary entropy value is reduced onto that
support. -/
def genRangeZeroTwo (entropy : ℕ) : ℕ := entropy % 2

/-- The comparison axis drawn once per `BvhNode::new` invocation. -/
def bvhChosenAxis (entropy : ℕ) : ℕ := genRangeZeroTwo entropy

/-- `XyRect::hit` (`hit.rs` lines 438-463). -/
def xyRectHit (x0 x1 y0 y1 k : ℚ) (matId : ℕ) (r : Ray) (tMin tMax : ℚ) :
    Option HitRec :=
  let t := (k - r.origin.z) / r.direction.z
  if t < tMin ∨ t > tMax then none
  else
    let x := r.origin.x + t * r.direction.x
    let y := r.origin.y + t * r.direction.y
    if x < x0 ∨ x > x1 ∨ y < y0 ∨ y > y1 then none
    else
      let u := (x - x0) / (x1 - x0)
      let v := (y - y0) / (y1 - y0)
      let nf := createNormalFace r ⟨0, 0, 1⟩
      some ⟨r.at t, nf.1, t, u, v, nf.2, matId⟩

/-- `XyRect::bounding_box` (`hit.rs` lines 465-470): the 2-D extent padded by
1e-4 along z. -/
def xyRectBox (x0 x1 y0 y1 k : ℚ) : Aabb :=
  ⟨⟨x0, y0, k - 1/10000⟩, ⟨x1, y1, k + 1/10000⟩⟩

/-- `XzRect::hit` (`hit.rs` lines 504-529; the in-plane coordinates are
called `x` and `y` in the source even though the second one is z). -/
def xzRectHit (x0 x1 z0 z1 k : ℚ) (matId : ℕ) (r : Ray) (tMin tMax : ℚ) :
    Option HitRec :=
  let t := (k - r.origin.y) / r.direction.y
  if t < tMin ∨ t > tMax then none
  else
    let x := r.origin.x + t * r.direction.x
    let y := r.origin.z + t * r.direction.z
    if x < x0 ∨ x > x1 ∨ y < z0 ∨ y > z1 then none
    else
      let u := (x - x0) / (x1 - x0)
      let v := (y - z0) / (z1 - z0)
      let nf := createNormalFace r ⟨0, 1, 0⟩
      some ⟨r.at t, nf.1, t, u, v, nf.2, matId⟩

/-- `XzRect::bounding_box` (`hit.rs` lines 531-536). -/
def xzRectBox (x0 x1 z0 z1 k : ℚ) : Aabb :=
  ⟨⟨x0, k - 1/10000, z0⟩, ⟨x1, k + 1/10000, z1⟩⟩

/-- `Translate::hit` (`hit.rs` lines 769-790): shift the ray backward by the
offset, delegate, then shift the resulting hit point forward; the normal and
flag are re-derived by `create_normal_face` from the child record's stored
normal and the shifted ray. -/
def translateHit (childHit : Ray → ℚ → ℚ → Option HitRec) (offset : Vec3)
    (r : Ray) (tMin tMax : ℚ) : Option HitRec :=
  let movedR : Ray := ⟨r.origin - offset, r.direction, r.time⟩
  match childHit movedR tMin tMax with
  | some rec =>
    let nf := createNormalFace movedR rec.normal
    some ⟨rec.p + offset, nf.1, rec.t, rec.u, rec.v, nf.2, rec.mat⟩
  | none => none

/-- The min/max over the 8 rotated corners of the child's box, as computed by
the loop in `RotateY::new` (`hit.rs` lines 826-849): each corner
`(x,y,z)` is rotated to `(cos·x + sin·z, y, −sin·x + cos·z)` and the
componentwise extrema are taken (the source initialises with ±infinity and
folds all 8 corners, which is the plain min/max over the 8 values). -/
def rotateYCornersBox (sinTheta cosTheta : ℚ) (bbox : Aabb) : Aabb :=
  let corner := fun (i j k : ℚ) =>
    let x := i * bbox.maximum.x + (1 - i) * bbox.minimum.x
    let y := j * bbox.maximum.y + (1 - j) * bbox.minimum.y
    let z := k * bbox.maximum.z + (1 - k) * bbox.minimum.z
    (⟨cosTheta * x + sinTheta * z, y, -sinTheta * x + cosTheta * z⟩ : Vec3)
  let cs := [corner 0 0 0, corner 0 0 1, corner 0 1 0, corner 0 1 1,
             corner 1 0 0, corner 1 0 1, corner 1 1 0, corner 1 1 1]
  let mins := cs.foldl
    (fun (acc : Vec3) c => ⟨min acc.x c.x, min acc.y c.y, min acc.z c.z⟩)
    (corner 0 0 0)
  let maxs := cs.foldl
    (fun (acc : Vec3) c => ⟨max acc.x c.x, max acc.y c.y, max acc.z c.z⟩)
    (corner 0 0 0)
  ⟨mins, maxs⟩

/-- The box stored by `RotateY::new` (`hit.rs` lines 811-856): when the child
has no box, none; otherwise the constructor runs the 8-corner min/max loop
into the local variables `min`/`max` but the struct it returns stores
`bbox: Some(bbox)` — the child's unrotated box; the computed extrema are
discarded.  `RotateY::bounding_box` (lines 901-903) returns this stored box. -/
def rotateYNewBox (childBox : Option Aabb) : Option Aabb :=
  match childBox with
  | none => none
  | some bbox => some bbox

/-- `RotateY::hit` (`hit.rs` lines 860-899): rotate the ray into object
space, delegate, rotate point and normal back, re-derive the face flag. -/
def rotateYHit (sinTheta cosTheta : ℚ)
    (childHit : Ray → ℚ → ℚ → Option HitRec) (r : Ray) (tMin tMax : ℚ) :
    Option HitRec :=
  let origin : Vec3 :=
    ⟨cosTheta * r.origin.x - sinTheta * r.origin.z,
     r.origin.y,
     sinTheta * r.origin.x + cosTheta * r.origin.z⟩
  let direction : Vec3 :=
    ⟨cosTheta * r.direction.x - sinTheta * r.direction.z,
     r.direction.y,
     sinTheta * r.direction.x + cosTheta * r.direction.z⟩
  let rotatedR : Ray := ⟨origin, direction, r.time⟩
  match childHit rotatedR tMin tMax with
  | none => none
  | some rec =>
    let p : Vec3 :=
      ⟨cosTheta * rec.p.x + sinTheta * rec.p.z,
       rec.p.y,
       -sinTheta * rec.p.x + cosTheta * rec.p.z⟩
    let normal : Vec3 :=
      ⟨cosTheta * rec.normal.x + sinTheta * rec.normal.z,
       rec.normal.y,
       -sinTheta * rec.normal.x + cosTheta * rec.normal.z⟩
    let nf := createNormalFace rotatedR normal
    some ⟨p, nf.1, rec.t, rec.u, rec.v, nf.2, rec.mat⟩

/-- `ConstantMedium::from_color` (`hit.rs` lines 914-921) stores
`neg_inv_density = -1.0 / d` for density `d`. -/
def cmNegInvDensity (d : ℚ) : ℚ := -1 / d

/-- `ConstantMedium::hit` (`hit.rs` lines 924-955).  The boundary is queried
twice: once over `(-inf, inf)` (result `bFirst`) and once from just past the
first hit over `(t, inf)` (result `bSecond t`); `lnFn uDraw` stands for
`f64::ln(thread_rng().gen())` and `sqrtFn` for the square root inside
`length()`. -/
def cmHit (negInvDensity : ℚ) (lnFn : ℚ → ℚ) (uDraw : ℚ) (sqrtFn : ℚ → ℚ)
    (bFirst : Option HitRec) (bSecond : ℚ → Option HitRec) (matId : ℕ)
    (r : Ray) (tMin tMax : ℚ) : Option HitRec :=
  match bFirst with
  | none => none
  | some rec1 =>
    match bSecond (rec1.t + 1/10000) with
    | none => none
    | some rec2 =>
      let t1 := max rec1.t tMin
      let t2 := min rec2.t tMax
      if t1 ≥ t2 then none
      else
        let t1 := if t1 < 0 then 0 else t1
        let rayLength := sqrtFn r.direction.lengthSquared
        let distanceInsideBoundary := (t2 - t1) * rayLength
        let hitDistance := negInvDensity * lnFn uDraw
        if hitDistance > distanceInsideBoundary then none
        else
          let t := t1 + hitDistance / rayLength
          some ⟨r.at t, ⟨0, 0, 0⟩, t, 0, 0, true, matId⟩

/-- A texture as consumed by materials: the spec treats texture sampling as
an external pure function `(u, v, point) -> color`. -/
abbrev Texture := ℚ → ℚ → Vec3 → Vec3

/-- The closed material variant set of `hit.rs` (`MaterialWrapper`). -/
inductive Material where
  | isotropic (albedo : Texture)
  | lambertian (albedo : Texture)
  | metal (albedo : Vec3) (fuzz : ℚ)
  | dielectric (ir : ℚ)
  | diffuseLight (emit : Texture)

/-- `Material::emitted`: the trait default returns black (`hit.rs` lines
985-987); only `DiffuseLight` overrides it with its texture value
(lines 1150-1152). -/
def Material.emitted : Material → ℚ → ℚ → Vec3 → Vec3
  | .diffuseLight emit, u, v, p => emit u v p
  | _, _, _, _ => ⟨0, 0, 0⟩

/-- The random draws one `scatter` call may consume: a unit vector
(`random_unit_vector`), a point in the unit sphere
(`random_in_unit_sphere`) and a uniform f64 (`rng.gen`). -/
structure RandPack where
  unitVec : Vec3
  inSphere : Vec3
  uniform : ℚ

/-- Schlick's approximation `Dielectric::reflectance` (`hit.rs` 1096-1100). -/
def reflectance (cosine refIdx : ℚ) : ℚ :=
  let r0 := (1 - refIdx) / (1 + refIdx)
  let r0 := r0 * r0
  r0 + (1 - r0) * (1 - cosine) ^ 5

/-- `Material::scatter` for each variant of `MaterialWrapper`
(`hit.rs`: Isotropic 974-981, Lambertian 1038-1052, Metal 1069-1085,
Dielectric 1103-1128, DiffuseLight 1146-1149). -/
def Material.scatter (sqrtFn : ℚ → ℚ) (m : Material) (pack : RandPack)
    (rIn : Ray) (rec : HitRec) : Option (Ray × Vec3) :=
  match m with
  | .isotropic albedo =>
    some (⟨rec.p, pack.inSphere, rIn.time⟩, albedo rec.u rec.v rec.p)
  | .lambertian albedo =>
    let scatterDirection := rec.normal + pack.unitVec
    let scatterDirection :=
      if scatterDirection.nearZero then rec.normal else scatterDirection
    some (⟨rec.p, scatterDirection, rIn.time⟩, albedo rec.u rec.v rec.p)
  | .metal albedo fuzz =>
    let reflected := (rIn.direction.unitWith sqrtFn).reflect rec.normal
    let scattered : Ray := ⟨rec.p, reflected + fuzz • pack.inSphere, rIn.time⟩
    if scattered.direction.dot rec.normal > 0 then some (scattered, albedo)
    else none
  | .dielectric ir =>
    let attenuation : Vec3 := ⟨1, 1, 1⟩
    let refractionRatio := if rec.frontFace then 1 / ir else ir
    let unitDirection := rIn.direction.unitWith sqrtFn
    let cosTheta := min ((Vec3.neg unitDirection).dot rec.normal) 1
    let sinTheta := sqrtFn (1 - cosTheta * cosTheta)
    let cannotRefract := refractionRatio * sinTheta > 1
    let direction :=
      if cannotRefract ∨ reflectance cosTheta refractionRatio > pack.uniform
      then unitDirection.reflect rec.normal
      else Vec3.refractWith sqrtFn unitDirection rec.normal refractionRatio
    some (⟨rec.p, direction, rIn.time⟩, attenuation)
  | .diffuseLight _ => none

/-- How one run of the `ray_color` loop ended: bounce budget exhausted,
scatter returned none (absorption), or the scene was missed. -/
inductive RcExit where
  | exhausted
  | absorbed
  | missed
deriving DecidableEq

/-- The loop body shared verbatim by `ray_color` in `world.rs` (lines 44-85)
and `main.rs` (lines 20-61): carry attenuation `product` and accumulated
emission `output`; per iteration decrement `depth` and stop when it goes
negative; otherwise intersect (`worldHit r` models
`world.hit(r, 0.001, INFINITY)`), gather emission, and either follow the
scattered ray or stop.  Returns the accumulator `output` as it stood at loop
exit together with the exit reason; the two source functions differ only in
what they return on the exhausted exit. -/
def rcLoop (worldHit : Ray → Option HitRec) (mats : ℕ → Material)
    (sqrtFn : ℚ → ℚ) (rng : ℕ → RandPack) (background : Vec3) :
    Ray → ℤ → Vec3 → Vec3 → ℕ → Vec3 × RcExit
  | r, depth, product, output, k =>
    let depth := depth - 1
    if _h : depth < 0 then (output, .exhausted)
    else
      match worldHit r with
      | some rec =>
        match (mats rec.mat).scatter sqrtFn (rng k) r rec with
        | some (scattered, attenuation) =>
          let emitted := (mats rec.mat).emitted rec.u rec.v rec.p
          rcLoop worldHit mats sqrtFn rng background scattered depth
            (product * attenuation) (output + emitted * product) (k + 1)
        | none =>
          let emitted := (mats rec.mat).emitted rec.u rec.v rec.p
          (output + emitted * product, .absorbed)
      | none => (output + product * background, .missed)
termination_by _r depth => depth.toNat
decreasing_by omega

/-- `ray_color` from `world.rs` (lines 44-85): on every exit, including the
depth-exhausted `break`, the accumulated `output` is returned. -/
def rayColorWorld (worldHit : Ray → Option HitRec) (mats : ℕ → Material)
    (sqrtFn : ℚ → ℚ) (rng : ℕ → RandPack) (background : Vec3) (r : Ray)
    (depth : ℤ) : Vec3 :=
  (rcLoop worldHit mats sqrtFn rng background r depth ⟨1, 1, 1⟩ ⟨0, 0, 0⟩ 0).1

/-- `ray_color` from `main.rs` (lines 20-61): identical loop except that the
depth-exhausted case returns `Vec3::new(0, 0, 0)` (line 34) instead of the
accumulator. -/
def rayColorMain (worldHit : Ray → Option HitRec) (mats : ℕ → Material)
    (sqrtFn : ℚ → ℚ) (rng : ℕ → RandPack) (background : Vec3) (r : Ray)
    (depth : ℤ) : Vec3 :=
  match rcLoop worldHit mats sqrtFn rng background r depth ⟨1, 1, 1⟩ ⟨0, 0, 0⟩ 0 with
  | (_, .exhausted) => ⟨0, 0, 0⟩
  | (out, _) => out

/-- The render configuration of `world.rs` (lines 18-24). -/
structure Config where
  aspect : ℚ
  imageWidth : ℤ
  samplesPerPixel : ℤ
  maxDepth : ℤ
  threads : ℕ
deriving DecidableEq

/-- `Config::new` (`world.rs` lines 27-41): the asserts, in source order
(`threads > 0` is asserted twice; the aspect ratio is never asserted).
A failing `assert!` aborts, modelled as an error result. -/
def configNew (aspect : ℚ) (imageWidth samplesPerPixel maxDepth : ℤ)
    (threads : ℕ) : Except String Config :=
  if ¬ threads > 0 then .error "assertion failed: threads > 0"
  else if ¬ imageWidth > 0 then .error "assertion failed: image_width > 0"
  else if ¬ samplesPerPixel > 0 then
    .error "assertion failed: samples_per_pixel > 0"
  else if ¬ maxDepth > 0 then .error "assertion failed: max_depth > 0"
  else if ¬ threads > 0 then .error "assertion failed: threads > 0"
  else .ok ⟨aspect, imageWidth, samplesPerPixel, maxDepth, threads⟩

/-- `chunk_size` in `render_scene` (`world.rs` line 913) and `main`
(`main.rs` line 408): integer division of the image height by the thread
count. -/
def chunkSize (imageHeight threads : ℕ) : ℕ := imageHeight / threads

/-- First row of worker `t`: `start = t * chunk_size`
(`world.rs` line 916, `main.rs` line 411). -/
def rowStart (imageHeight threads t : ℕ) : ℕ := t * chunkSize imageHeight threads

/-- One past the last row of worker `t`:
`end = min(t * chunk_size + chunk_size, image_height)`
(`world.rs` line 917, `main.rs` line 412). -/
def rowEnd (imageHeight threads t : ℕ) : ℕ :=
  min (t * chunkSize imageHeight threads + chunkSize imageHeight threads)
    imageHeight

/-- Whether some worker's range `start..end` covers row `j`. -/
def rowCovered (imageHeight threads j : ℕ) : Bool :=
  (List.range threads).any fun t =>
    rowStart imageHeight threads t ≤ j && j < rowEnd imageHeight threads t

/-- The first per-thread jitter draw in `main` (`main.rs` line 416): thread
`t`'s setup consumes the next two values of the RNG stream before spawning. -/
def threadRandOne (stream : ℕ → ℚ) (t : ℕ) : ℚ := stream (2 * t)

/-- The second per-thread jitter draw in `main` (`main.rs` line 417). -/
def threadRandTwo (stream : ℕ → ℚ) (t : ℕ) : ℚ := stream (2 * t + 1)

/-- The normalized image coordinates computed in the innermost sample loop of
`main` (`main.rs` lines 424-425): `u = (i + rand1)/(width-1)`,
`v = (j + rand2)/(height-1)`, using the thread's pre-drawn `rand1`/`rand2`. -/
def mainSampleUV (rand1 rand2 : ℚ) (i j imageWidth imageHeight : ℤ) : ℚ × ℚ :=
  (((i : ℚ) + rand1) / ((imageWidth : ℚ) - 1),
   ((j : ℚ) + rand2) / ((imageHeight : ℚ) - 1))

/-- The list of `(u, v)` pairs used for the `samples_per_pixel` iterations of
the sample loop of `main` for pixel `(i, j)` on thread `t` (`main.rs` lines
423-428): the loop body does not depend on the sample index. -/
def mainPixelSamples (stream : ℕ → ℚ) (t : ℕ) (spp : ℕ)
    (i j imageWidth imageHeight : ℤ) : List (ℚ × ℚ) :=
  (List.range spp).map fun _ =>
    mainSampleUV (threadRandOne stream t) (threadRandTwo stream t) i j
      imageWidth imageHeight

/-- The `expect` calls of `BvhNode::new` (`bvh.rs` lines 72-79): the two
children's bounding boxes are unwrapped with
`"No bounding box in bvh node constructor.."`; a missing box aborts the
construction (a panic, modelled as an error result), otherwise the node
stores the surrounding box. -/
def bvhNodeChildBoxes (leftBox rightBox : Option Aabb) : Except String Aabb :=
  match leftBox with
  | none => .error "No bounding box in bvh node constructor.."
  | some lb =>
    match rightBox with
    | none => .error "No bounding box in bvh node constructor.."
    | some rb => .ok (Aabb.surroundingBox lb rb)

/-- The `unwrap` calls inside `box_compare` (`bvh.rs` lines 28-29): a child
without a bounding box makes the comparator panic. -/
def boxCompareChecked (axis : ℕ) (boxA boxB : Option Aabb) :
    Except String Ordering :=
  match boxA, boxB with
  | some ba, some bb => .ok (boxCompare axis ba bb)
  | _, _ => .error "called Option::unwrap() on a None value"

/-- Well-behavedness of a scene object's `hit`, as exhibited by every
`Hittable` variant of `hit.rs`: a reported hit parameter lies in the queried
interval; shrinking `t_max` to any bound still past the reported hit returns
the same record; widening `t_max` can only return an equally close or closer
hit; and (for rays whose direction has no zero component, where the rational
slab model agrees with the IEEE one) a hit over a nondegenerate interval
implies the object's own bounding box reports a hit over that interval. -/
def LeafWf (a : Leaf) : Prop :=
  (∀ r tMin tMax rec, a.hitFn r tMin tMax = some rec →
    tMin ≤ rec.t ∧ rec.t ≤ tMax) ∧
  (∀ r tMin tMax tMax2 rec, a.hitFn r tMin tMax = some rec →
    rec.t ≤ tMax2 → tMax2 ≤ tMax → a.hitFn r tMin tMax2 = some rec) ∧
  (∀ r tMin tMax tMax2 rec, tMax2 ≤ tMax → a.hitFn r tMin tMax2 = some rec →
    ∃ rec2, a.hitFn r tMin tMax = some rec2 ∧ rec2.t ≤ rec.t) ∧
  (∀ r tMin tMax rec, r.direction.x ≠ 0 → r.direction.y ≠ 0 →
    r.direction.z ≠ 0 → tMin < tMax → a.hitFn r tMin tMax = some rec →
    a.box.hit r tMin tMax = true)

/-- A unique nearest hit among a list of scene objects: `A` hits with record
`recA`, no object hits closer over the same interval, and any object hitting
at exactly the same parameter is `A` itself (no ties at the minimum). -/
structure UniqueNearest (l : List Leaf) (r : Ray) (tMin tMax : ℚ) (A : Leaf)
    (recA : HitRec) : Prop where
  mem : A ∈ l
  hit : A.hitFn r tMin tMax = some recA
  minimal : ∀ b ∈ l, ∀ recB, b.hitFn r tMin tMax = some recB → recA.t ≤ recB.t
  unique : ∀ b ∈ l, ∀ recB, b.hitFn r tMin tMax = some recB →
    recB.t = recA.t → b = A

/-- First of two coincident axis-aligned rectangles (material id 1), for the
tie scenario in BVH-versus-list intersection. -/
def cxRect1 : Leaf := ⟨xyRectHit 0 4 0 4 5 1, xyRectBox 0 4 0 4 5⟩

/-- Second coincident rectangle, identical geometry, material id 2. -/
def cxRect2 : Leaf := ⟨xyRectHit 0 4 0 4 5 2, xyRectBox 0 4 0 4 5⟩

/-- A ray through both coincident rectangles (all direction components
nonzero so the rational slab test matches the IEEE one). -/
def cxRay : Ray := ⟨⟨0, 0, 0⟩, ⟨1/2, 1/2, 1⟩, 0⟩

/-- A generously padded box for the synthetic scene objects below. -/
def wBoxTen : Aabb := ⟨⟨-10, -10, -10⟩, ⟨10, 10, 10⟩⟩

/-- The probe ray of the synthetic two-object scene. -/
def wRay : Ray := ⟨⟨0, 0, 0⟩, ⟨1, 1, 1⟩, 0⟩

/-- Record returned by the first synthetic object (hit at t = 5). -/
def wRecA : HitRec := ⟨wRay.at 5, ⟨0, 1, 0⟩, 5, 0, 0, true, 1⟩

/-- Record returned by the second synthetic object (hit at t = 7). -/
def wRecB : HitRec := ⟨wRay.at 7, ⟨0, 1, 0⟩, 7, 0, 0, true, 2⟩

/-- A synthetic scene object hitting `wRay` at parameter 5 and nothing else;
its box amply contains the hit. -/
def wLeafA : Leaf :=
  ⟨fun r tMin tMax =>
    if r = wRay ∧ tMin ≤ 5 ∧ 5 ≤ tMax then some wRecA else none, wBoxTen⟩

/-- A synthetic scene object hitting `wRay` at parameter 7 and nothing else. -/
def wLeafB : Leaf :=
  ⟨fun r tMin tMax =>
    if r = wRay ∧ tMin ≤ 7 ∧ 7 ≤ tMax then some wRecB else none, wBoxTen⟩

/-- The boundary rectangle wrapped by the RotateY decorator under test:
an `XzRect` spanning x in [-2,2], z in [-1,1] at height 0. -/
def c3ChildHit : Ray → ℚ → ℚ → Option HitRec := xzRectHit (-2) 2 (-1) 1 0 7

/-- The bounding box of that rectangle. -/
def c3ChildBox : Aabb := xzRectBox (-2) 2 (-1) 1 0

/-- A downward world-space ray whose object-space image (under the rotation
with sin = 3/5, cos = 4/5) hits the rectangle's far corner. -/
def c3Ray : Ray := ⟨⟨11/5, 1, -2/5⟩, ⟨0, -1, 0⟩, 0⟩

/-- Boundary entry record for the constant-medium test (entry at t = 1). -/
def c6Rec1 : HitRec := ⟨⟨0, 0, 0⟩, ⟨0, 0, 0⟩, 1, 0, 0, true, 9⟩

/-- Boundary exit record for the constant-medium test (exit at t = 11). -/
def c6Rec2 : HitRec := ⟨⟨0, -10, 0⟩, ⟨0, 0, 0⟩, 11, 0, 0, true, 9⟩

/-- A unit-speed downward ray through the medium (direction length 1, so the
square-root oracle is exact on it). -/
def c6Ray : Ray := ⟨⟨0, 0, 0⟩, ⟨0, -1, 0⟩, 0⟩

/-- A ray hitting the translated rectangle from behind (back face). -/
def c9BackRay : Ray := ⟨⟨1, 1, 0⟩, ⟨0, 0, 1⟩, 0⟩

/-- A ray hitting the translated rectangle from the front. -/
def c9FrontRay : Ray := ⟨⟨1, 1, 10⟩, ⟨0, 0, -1⟩, 0⟩

/-- Component lemma for vector addition. -/
@[simp] theorem Vec3.add_x (a b : Vec3) : (a + b).x = a.x + b.x := rfl

/-- Component lemma for vector addition. -/
@[simp] theorem Vec3.add_y (a b : Vec3) : (a + b).y = a.y + b.y := rfl

/-- Component lemma for vector addition. -/
@[simp] theorem Vec3.add_z (a b : Vec3) : (a + b).z = a.z + b.z := rfl

/-- Component lemma for vector subtraction. -/
@[simp] theorem Vec3.sub_x (a b : Vec3) : (a - b).x = a.x - b.x := rfl

/-- Component lemma for vector subtraction. -/
@[simp] theorem Vec3.sub_y (a b : Vec3) : (a - b).y = a.y - b.y := rfl

/-- Component lemma for vector subtraction. -/
@[simp] theorem Vec3.sub_z (a b : Vec3) : (a - b).z = a.z - b.z := rfl

/-- Component lemma for vector negation. -/
@[simp] theorem Vec3.neg_x (a : Vec3) : (Vec3.neg a).x = -a.x := rfl

/-- Component lemma for vector negation. -/
@[simp] theorem Vec3.neg_y (a : Vec3) : (Vec3.neg a).y = -a.y := rfl

/-- Component lemma for vector negation. -/
@[simp] theorem Vec3.neg_z (a : Vec3) : (Vec3.neg a).z = -a.z := rfl

/-- Component lemma for the scalar multiple. -/
@[simp] theorem Vec3.smul_x (q : ℚ) (a : Vec3) : (q • a).x = q * a.x := rfl

/-- Component lemma for the scalar multiple. -/
@[simp] theorem Vec3.smul_y (q : ℚ) (a : Vec3) : (q • a).y = q * a.y := rfl

/-- Component lemma for the scalar multiple. -/
@[simp] theorem Vec3.smul_z (q : ℚ) (a : Vec3) : (q • a).z = q * a.z := rfl

/-- Component lemma for the Hadamard product. -/
@[simp] theorem Vec3.mul_x (a b : Vec3) : (a * b).x = a.x * b.x := rfl

/-- Component lemma for the Hadamard product. -/
@[simp] theorem Vec3.mul_y (a b : Vec3) : (a * b).y = a.y * b.y := rfl

/-- Component lemma for the Hadamard product. -/
@[simp] theorem Vec3.mul_z (a b : Vec3) : (a * b).z = a.z * b.z := rfl

/-- Literal computation lemma for vector addition. -/
@[simp] theorem Vec3.mk_add (a b c d e f : ℚ) :
    (⟨a, b, c⟩ : Vec3) + ⟨d, e, f⟩ = ⟨a + d, b + e, c + f⟩ := rfl

/-- Literal computation lemma for vector subtraction. -/
@[simp] theorem Vec3.mk_sub (a b c d e f : ℚ) :
    (⟨a, b, c⟩ : Vec3) - ⟨d, e, f⟩ = ⟨a - d, b - e, c - f⟩ := rfl

/-- Literal computation lemma for the scalar multiple. -/
@[simp] theorem Vec3.mk_smul (q a b c : ℚ) :
    q • (⟨a, b, c⟩ : Vec3) = ⟨q * a, q * b, q * c⟩ := rfl

/-- Extensionality for vectors. -/
@[ext] theorem Vec3.ext {a b : Vec3} (hx : a.x = b.x) (hy : a.y = b.y)
    (hz : a.z = b.z) : a = b := by
  cases a; cases b; simp_all

/-- Multiplying the black color into any vector gives the black color. -/
theorem Vec3.zero_hmul (v : Vec3) : (⟨0, 0, 0⟩ : Vec3) * v = ⟨0, 0, 0⟩ := by
  ext <;> simp

/-- Adding the black color changes nothing. -/
theorem Vec3.add_black (v : Vec3) : v + (⟨0, 0, 0⟩ : Vec3) = v := by
  ext <;> simp

/-- Folding the box-merge step from a missing running box stays missing. -/
theorem lbbStep_foldl_none (rest : List (Option Aabb)) :
    rest.foldl lbbStep none = none := by
  induction rest with
  | nil => rfl
  | cons o rest ih => simpa [lbbStep] using ih

/-- A missing child box anywhere in the fold forces a missing result. -/
theorem lbbStep_foldl_mem_none (rest : List (Option Aabb)) (acc : Option Aabb)
    (h : none ∈ rest) : rest.foldl lbbStep acc = none := by
  induction rest generalizing acc with
  | nil => cases h
  | cons o rest ih =>
    rcases List.mem_cons.mp h with h1 | h1
    · subst h1
      have : lbbStep acc none = none := by cases acc <;> rfl
      rw [List.foldl_cons, this, lbbStep_foldl_none]
    · exact ih _ h1

/-- C5: the comparison axis in `BvhNode::new` is drawn by
`rng.gen_range(0..2)`, whose support is the two values 0 and 1 (the range is
half-open), so the z axis (axis 2, for which the comparator even carries a
match arm) is never chosen.  This refutes uniform choice among the three
axes: the claimed positive probability of axis 2 is zero. -/
theorem c5_axis_two_never_chosen :
    ∀ entropy : ℕ,
      (bvhChosenAxis entropy = 0 ∨ bvhChosenAxis entropy = 1) ∧
      bvhChosenAxis entropy ≠ 2 := by
  intro e
  unfold bvhChosenAxis genRangeZeroTwo
  omega

/-- C4: the row partition of `render_scene`/`main` caps every worker's range
at `start + chunk_size`, so nothing absorbs the remainder: with image height
225 and 10 threads (the default 400-wide 16:9 image), rows 220-224 are
assigned to no worker, and in particular the union of the ranges is not
`[0, 225)` — refuting the claimed exact cover — while the covered rows are
exactly `[0, 220)`. -/
theorem c4_last_rows_unassigned :
    rowCovered 225 10 224 = false ∧ rowCovered 225 10 220 = false ∧
    rowCovered 225 10 219 = true ∧ 224 < 225 := by decide

/-- C7 counterexample: `Config::new` accepts a negative aspect ratio — the
constructor asserts positivity of threads, width, samples and depth, but
never of the aspect ratio, so this non-positive field is not rejected at
render setup. -/
theorem c7_counterexample_negative_aspect_accepted :
    configNew (-1) 400 10 50 4 = .ok ⟨-1, 400, 10, 50, 4⟩ ∧ ¬ (0 : ℚ) < -1 := by
  refine ⟨by norm_num [configNew], by norm_num⟩

/-- C7 (amended): `Config::new` succeeds exactly when thread count, image
width, samples per pixel and max depth are positive; those four violations
are rejected fatally (before `render_scene` can spawn any worker), while the
aspect ratio is never validated. -/
theorem c7_validation_without_aspect (aspect : ℚ) (w s d : ℤ) (th : ℕ) :
    configNew aspect w s d th = .ok ⟨aspect, w, s, d, th⟩ ↔
      0 < th ∧ 0 < w ∧ 0 < s ∧ 0 < d := by
  unfold configNew
  split_ifs <;> simp_all

/-- C8 counterexample: a child without a bounding box (for instance an empty
`HittableList`, whose `bounding_box` is gracefully `None`) makes
`BvhNode::new` panic through its `expect`, instead of degrading gracefully:
the construction is a fatal error, not an absent result. -/
theorem c8_counterexample_bvh_panics :
    listBoundingBox [] = none ∧
    bvhNodeChildBoxes (listBoundingBox []) (listBoundingBox []) =
      .error "No bounding box in bvh node constructor.." := by
  exact ⟨rfl, rfl⟩

/-- C8 (amended): missing boxes propagate as an absent result through
`HittableList::bounding_box` (empty list, or any child without a box), but in
BVH construction they are fatal: both the constructor's `expect` on a child's
box and the comparator's `unwrap` panic. -/
theorem c8_no_box_graceful_in_list_fatal_in_bvh :
    listBoundingBox [] = none ∧
    (∀ boxes : List (Option Aabb), none ∈ boxes → listBoundingBox boxes = none) ∧
    (∀ rb, bvhNodeChildBoxes none rb =
      .error "No bounding box in bvh node constructor..") ∧
    (∀ lb, bvhNodeChildBoxes (some lb) none =
      .error "No bounding box in bvh node constructor..") ∧
    (∀ axis bb, boxCompareChecked axis none bb =
      .error "called Option::unwrap() on a None value") := by
  refine ⟨rfl, ?_, fun _ => rfl, fun _ => rfl, fun _ bb => by cases bb <;> rfl⟩
  intro boxes h
  match boxes with
  | [] => rfl
  | first :: rest =>
    rcases List.mem_cons.mp h with h1 | h1
    · subst h1; rfl
    · cases first with
      | none => rfl
      | some tb =>
        show rest.foldl lbbStep (some tb) = none
        exact lbbStep_foldl_mem_none rest (some tb) h1

/-- C8 witness: the graceful and fatal branches at concrete inputs — a list
holding one boxless child reports no box, and BVH construction over boxless
children panics. -/
theorem c8_witness :
    listBoundingBox [none] = none ∧
    bvhNodeChildBoxes none none =
      .error "No bounding box in bvh node constructor.." := by
  exact ⟨c8_no_box_graceful_in_list_fatal_in_bvh.2.1 [none] (by simp),
    c8_no_box_graceful_in_list_fatal_in_bvh.2.2.1 none⟩

/-- C3: the `RotateY` bounding box is the child's unrotated box, not the
min/max over the 8 rotated corners, and it fails to contain reachable hit
points.  At rotation sin = 3/5, cos = 4/5 over an `XzRect` spanning
x ∈ [-2,2], z ∈ [-1,1], the world ray from (11/5, 1, -2/5) straight down hits
the rotated rectangle at (11/5, 0, -2/5), which lies outside the stored box
(x ≤ 2); the 8-corner min/max box the constructor computes and then discards
differs from the stored box. -/
theorem c3_rotate_y_box_is_unrotated_child_box :
    (rotateYHit (3/5) (4/5) c3ChildHit c3Ray (1/1000) 100).map HitRec.p =
      some ⟨11/5, 0, -2/5⟩ ∧
    rotateYNewBox (some c3ChildBox) = some c3ChildBox ∧
    ¬ c3ChildBox.contains ⟨11/5, 0, -2/5⟩ ∧
    rotateYCornersBox (3/5) (4/5) c3ChildBox ≠ c3ChildBox := by
  refine ⟨?_, rfl, ?_, ?_⟩
  · norm_num [rotateYHit, c3ChildHit, c3Ray, xzRectHit, createNormalFace,
      Ray.at, Vec3.dot]
  · norm_num [c3ChildBox, xzRectBox, Aabb.contains]
  · norm_num [rotateYCornersBox, c3ChildBox, xzRectBox]

/-- C9 counterexample: the front-face flag is not preserved by `Translate`.
A ray hitting the wrapped rectangle from behind gets `front_face = false`
from the child, but `Translate::hit` re-derives the flag from the child's
already-oriented normal and reports `true`. -/
theorem c9_counterexample_front_face_flipped :
    (translateHit (xyRectHit 0 2 0 2 5 3) ⟨1, 0, 0⟩ c9BackRay (1/1000)
      100).map HitRec.frontFace = some true ∧
    (xyRectHit 0 2 0 2 5 3 ⟨c9BackRay.origin - ⟨1, 0, 0⟩, c9BackRay.direction,
      c9BackRay.time⟩ (1/1000) 100).map HitRec.frontFace = some false := by
  constructor
  · norm_num [translateHit, xyRectHit, c9BackRay, createNormalFace, Ray.at,
      Vec3.dot]
  · norm_num [xyRectHit, c9BackRay, createNormalFace, Ray.at, Vec3.dot]

/-- C9 (amended): when the child's hit on the backward-shifted ray reports a
record whose stored normal opposes the ray direction (the generic case — it
holds whenever the child's own face test was strict), `Translate::hit`
returns that record with only the point shifted by the offset and the
front-face flag recomputed to `true`; normal, t, u, v and material are
preserved.  A child record with `front_face = false` therefore comes back
with the flag flipped, as the counterexample shows. -/
theorem c9_translate_shifts_point_recomputes_face
    (childHit : Ray → ℚ → ℚ → Option HitRec) (offset : Vec3) (r : Ray)
    (tMin tMax : ℚ) (rec : HitRec)
    (h : childHit ⟨r.origin - offset, r.direction, r.time⟩ tMin tMax = some rec)
    (hdot : r.direction.dot rec.normal < 0) :
    translateHit childHit offset r tMin tMax =
      some ⟨rec.p + offset, rec.normal, rec.t, rec.u, rec.v, true, rec.mat⟩ := by
  simp only [translateHit, h, createNormalFace, hdot]
  simp

/-- C9 witness: the amended statement at a concrete front hit of the
translated rectangle. -/
theorem c9_witness :
    translateHit (xyRectHit 0 2 0 2 5 3) ⟨1, 0, 0⟩ c9FrontRay (1/1000) 100 =
      some ⟨(⟨0, 1, 5⟩ : Vec3) + ⟨1, 0, 0⟩, ⟨0, 0, 1⟩, 5, 0, 1/2, true, 3⟩ :=
  c9_translate_shifts_point_recomputes_face _ _ _ _ _
    ⟨⟨0, 1, 5⟩, ⟨0, 0, 1⟩, 5, 0, 1/2, true, 3⟩
    (by norm_num [xyRectHit, c9FrontRay, createNormalFace, Ray.at, Vec3.dot])
    (by norm_num [c9FrontRay, Vec3.dot])

/-- C10: in the binary's render loop every sample of a pixel uses the same
normalized image coordinates — the jitter pair is drawn per worker thread
before spawning, and the sample loop body does not depend on the sample
index, so any two sample indices below `samples_per_pixel` yield identical
`(u, v)`. -/
theorem c10_same_uv_for_all_samples (stream : ℕ → ℚ) (t spp : ℕ)
    (i j w h : ℤ) (s1 s2 : ℕ) (h1 : s1 < spp) (h2 : s2 < spp) :
    (mainPixelSamples stream t spp i j w h)[s1]? =
      (mainPixelSamples stream t spp i j w h)[s2]? := by
  simp [mainPixelSamples, h1, h2]

/-- A material that scatters never emits: every variant that can return a
scatter result uses the trait's default black emission, and `DiffuseLight`
(the only emitter) always returns `None` from `scatter`. -/
theorem scatter_some_emitted_zero (m : Material) (sqrtFn : ℚ → ℚ)
    (pack : RandPack) (rIn : Ray) (rec : HitRec) (x : Ray × Vec3)
    (h : m.scatter sqrtFn pack rIn rec = some x) (u v : ℚ) (p : Vec3) :
    m.emitted u v p = ⟨0, 0, 0⟩ := by
  cases m <;> simp [Material.scatter, Material.emitted] at h ⊢

/-- When the `ray_color` loop exits because the bounce budget ran out, the
accumulator `output` still equals its initial value: emission is only added
on iterations whose material scattered, and scattering materials emit
black. -/
theorem rcLoop_exhausted_output (w : Ray → Option HitRec) (mats : ℕ → Material)
    (sf : ℚ → ℚ) (rng : ℕ → RandPack) (bg : Vec3) :
    ∀ (r : Ray) (d : ℤ) (prod out : Vec3) (k : ℕ),
      (rcLoop w mats sf rng bg r d prod out k).2 = .exhausted →
      (rcLoop w mats sf rng bg r d prod out k).1 = out := by
  intro r d prod out k
  induction r, d, prod, out, k using rcLoop.induct w mats sf rng bg with
  | case1 r d prod out k dm1 hneg =>
    intro _
    rw [rcLoop, dif_pos hneg]
  | case2 r d prod out k dm1 hneg rec hrec scattered attenuation hscat em ih =>
    intro hx
    rw [rcLoop, dif_neg hneg] at hx ⊢
    simp only [hrec, hscat] at hx ⊢
    have hzero := scatter_some_emitted_zero (mats rec.mat) sf (rng k) r rec _
      hscat rec.u rec.v rec.p
    have hem : em = ⟨0, 0, 0⟩ := hzero
    rw [hzero, Vec3.zero_hmul, Vec3.add_black] at hx ⊢
    rw [hem, Vec3.zero_hmul, Vec3.add_black] at ih
    exact ih hx
  | case3 r d prod out k dm1 hneg rec hrec hscat =>
    intro hx
    rw [rcLoop, dif_neg hneg] at hx
    simp only [hrec, hscat] at hx
    exact absurd hx (by decide)
  | case4 r d prod out k dm1 hneg hrec =>
    intro hx
    rw [rcLoop, dif_neg hneg] at hx
    simp only [hrec] at hx
    exact absurd hx (by decide)

/-- C2: whenever the path-trace loop terminates because the depth budget is
exhausted, the color returned equals the accumulator `output` as it stood at
that point — for the `world.rs` integrator by its very `break` (it returns
`output` on every exit), and for the `main.rs` copy (which returns literal
black there) because the accumulator is provably still black at a
depth-exhausted exit: emission is gathered only from materials that also
scattered, and every scattering material emits black. -/
theorem c2_exhausted_returns_accumulator (w : Ray → Option HitRec)
    (mats : ℕ → Material) (sf : ℚ → ℚ) (rng : ℕ → RandPack) (bg : Vec3)
    (r : Ray) (depth : ℤ)
    (hx : (rcLoop w mats sf rng bg r depth ⟨1, 1, 1⟩ ⟨0, 0, 0⟩ 0).2 = .exhausted) :
    rayColorWorld w mats sf rng bg r depth =
      (rcLoop w mats sf rng bg r depth ⟨1, 1, 1⟩ ⟨0, 0, 0⟩ 0).1 ∧
    rayColorMain w mats sf rng bg r depth =
      (rcLoop w mats sf rng bg r depth ⟨1, 1, 1⟩ ⟨0, 0, 0⟩ 0).1 := by
  refine ⟨rfl, ?_⟩
  unfold rayColorMain
  have h1 := rcLoop_exhausted_output w mats sf rng bg r depth ⟨1, 1, 1⟩
    ⟨0, 0, 0⟩ 0 hx
  rcases hres : rcLoop w mats sf rng bg r depth ⟨1, 1, 1⟩ ⟨0, 0, 0⟩ 0 with ⟨out, ex⟩
  rw [hres] at hx h1
  simp only at hx h1
  subst hx
  simp [h1]

/-- C2 witness: a depth budget of 0 exhausts immediately in an empty scene,
and both integrators return the accumulator. -/
theorem c2_witness :
    (rcLoop (fun _ => none) (fun _ => .metal ⟨0, 0, 0⟩ 0) (fun q => q)
      (fun _ => ⟨⟨0, 0, 0⟩, ⟨0, 0, 0⟩, 0⟩) ⟨0, 0, 0⟩ ⟨⟨0, 0, 0⟩, ⟨1, 1, 1⟩, 0⟩ 0
      ⟨1, 1, 1⟩ ⟨0, 0, 0⟩ 0).2 = .exhausted ∧
    rayColorMain (fun _ => none) (fun _ => .metal ⟨0, 0, 0⟩ 0) (fun q => q)
      (fun _ => ⟨⟨0, 0, 0⟩, ⟨0, 0, 0⟩, 0⟩) ⟨0, 0, 0⟩ ⟨⟨0, 0, 0⟩, ⟨1, 1, 1⟩, 0⟩ 0 =
      (rcLoop (fun _ => none) (fun _ => .metal ⟨0, 0, 0⟩ 0) (fun q => q)
        (fun _ => ⟨⟨0, 0, 0⟩, ⟨0, 0, 0⟩, 0⟩) ⟨0, 0, 0⟩ ⟨⟨0, 0, 0⟩, ⟨1, 1, 1⟩, 0⟩ 0
        ⟨1, 1, 1⟩ ⟨0, 0, 0⟩ 0).1 := by
  have hx : (rcLoop (fun _ => none) (fun _ => Material.metal ⟨0, 0, 0⟩ 0)
      (fun q => q) (fun _ => ⟨⟨0, 0, 0⟩, ⟨0, 0, 0⟩, 0⟩) ⟨0, 0, 0⟩
      ⟨⟨0, 0, 0⟩, ⟨1, 1, 1⟩, 0⟩ 0 ⟨1, 1, 1⟩ ⟨0, 0, 0⟩ 0).2 = .exhausted := by
    rw [rcLoop]
    norm_num
  exact ⟨hx, (c2_exhausted_returns_accumulator _ _ _ _ _ _ _ hx).2⟩

/-- C6 counterexample: with density 2 and ln(u) = -1 the medium (per the
code's `neg_inv_density · ln u`) samples a free-flight distance of 1/2 and
scatters at t = 3/2, whereas the claimed `-density · ln u` distance of 2
would put the scattering event at t = 3: the sampled distance is not
`-density · ln u`. -/
theorem c6_counterexample_distance_formula :
    (cmHit (cmNegInvDensity 2) (fun _ => -1) (1/2) (fun q => q) (some c6Rec1)
      (fun _ => some c6Rec2) 9 c6Ray (1/1000) 1000).map HitRec.t =
      some (3/2) ∧
    (3/2 : ℚ) ≠ 1 + (-2 * (-1)) / 1 := by
  constructor
  · norm_num [cmHit, cmNegInvDensity, c6Rec1, c6Rec2, c6Ray,
      Vec3.lengthSquared, Vec3.dot, Ray.at]
  · norm_num

/-- C6 (amended): given boundary entry/exit records and a nonempty crossing
window, `ConstantMedium::hit` samples the free-flight distance
`(-1/density) · ln u` (an exponential with rate `density`, not
`1/density`), misses exactly when that distance exceeds the
boundary-crossing length `(t2 - t1) · |direction|`, and otherwise scatters
at `t1 + distance / |direction|`. -/
theorem c6_free_flight_distance (d : ℚ) (lnFn : ℚ → ℚ) (uDraw : ℚ)
    (sqrtFn : ℚ → ℚ) (bFirst : Option HitRec) (bSecond : ℚ → Option HitRec)
    (matId : ℕ) (r : Ray) (tMin tMax : ℚ) (rec1 rec2 : HitRec)
    (h1 : bFirst = some rec1) (h2 : bSecond (rec1.t + 1/10000) = some rec2)
    (hwin : max rec1.t tMin < min rec2.t tMax) :
    (cmHit (cmNegInvDensity d) lnFn uDraw sqrtFn bFirst bSecond matId r tMin
        tMax = none ↔
      (-1/d) * lnFn uDraw >
        (min rec2.t tMax - (if max rec1.t tMin < 0 then 0 else max rec1.t tMin)) *
          sqrtFn r.direction.lengthSquared) ∧
    (∀ rec, cmHit (cmNegInvDensity d) lnFn uDraw sqrtFn bFirst bSecond matId r
        tMin tMax = some rec →
      rec.t = (if max rec1.t tMin < 0 then 0 else max rec1.t tMin) +
        ((-1/d) * lnFn uDraw) / sqrtFn r.direction.lengthSquared) := by
  subst h1
  simp only [cmHit, cmNegInvDensity, h2]
  rw [if_neg (not_le.mpr hwin)]
  by_cases hgt : -1/d * lnFn uDraw >
      (min rec2.t tMax - (if max rec1.t tMin < 0 then 0 else max rec1.t tMin)) *
        sqrtFn r.direction.lengthSquared
  · constructor
    · simp only [if_pos hgt]
      simpa using hgt
    · intro rec hrec
      rw [if_pos hgt] at hrec
      exact absurd hrec (by simp)
  · constructor
    · simp only [if_neg hgt]
      simpa using hgt
    · intro rec hrec
      rw [if_neg hgt] at hrec
      have := Option.some_inj.mp hrec
      subst this
      rfl

/-- C6 witness: the amended statement instantiated at density 2, ln(u) = -1,
a unit-length downward ray and boundary crossings at t = 1 and t = 11. -/
theorem c6_witness :
    (cmHit (cmNegInvDensity 2) (fun _ => -1) (1/2) (fun q => q) (some c6Rec1)
        (fun _ => some c6Rec2) 9 c6Ray (1/1000) 1000 = none ↔
      (-1/2 : ℚ) * (-1) >
        (min c6Rec2.t 1000 -
          (if max c6Rec1.t (1/1000) < 0 then 0 else max c6Rec1.t (1/1000))) *
          ((fun q => q) c6Ray.direction.lengthSquared)) ∧
    (∀ rec, cmHit (cmNegInvDensity 2) (fun _ => -1) (1/2) (fun q => q)
        (some c6Rec1) (fun _ => some c6Rec2) 9 c6Ray (1/1000) 1000 = some rec →
      rec.t = (if max c6Rec1.t (1/1000) < 0 then 0 else max c6Rec1.t (1/1000)) +
        ((-1/2 : ℚ) * (-1)) / ((fun q => q) c6Ray.direction.lengthSquared)) :=
  c6_free_flight_distance 2 (fun _ => -1) (1/2) (fun q => q) (some c6Rec1)
    (fun _ => some c6Rec2) 9 c6Ray (1/1000) 1000 c6Rec1 c6Rec2 rfl rfl
    (by norm_num [c6Rec1, c6Rec2])

/-- The branch taken by `if b > a then b else a` is the maximum. -/
theorem ite_gt_eq_max (a b : ℚ) : (if b > a then b else a) = max a b := by
  rcases le_or_lt b a with h | h
  · rw [if_neg (not_lt.mpr h), max_eq_left h]
  · rw [if_pos h, max_eq_right h.le]

/-- The branch taken by `if b < a then b else a` is the minimum. -/
theorem ite_lt_eq_min (a b : ℚ) : (if b < a then b else a) = min a b := by
  rcases le_or_lt a b with h | h
  · rw [if_neg (not_lt.mpr h), min_eq_left h]
  · rw [if_pos h, min_eq_right h.le]

/-- One step of the slab loop tightens the interval to the axis extrema. -/
theorem slabLoop_cons (ax : AxisData) (rest : List AxisData) (t0 t1 : ℚ) :
    slabLoop (ax :: rest) t0 t1 =
      if min t1 (slabHi ax) ≤ max t0 (slabLo ax) then false
      else slabLoop rest (max t0 (slabLo ax)) (min t1 (slabHi ax)) := by
  rcases ax with ⟨mn, mx, o, d⟩
  by_cases h : (1 : ℚ)/d < 0 <;>
    simp only [slabLoop, slabLo, slabHi, h, if_pos, if_neg, if_true, if_false,
      ite_true, ite_false] <;>
    rw [ite_gt_eq_max, ite_lt_eq_min]

/-- Unfolding of the running lower bound. -/
theorem foldLo_cons (ax : AxisData) (rest : List AxisData) (t : ℚ) :
    foldLo (ax :: rest) t = foldLo rest (max t (slabLo ax)) := rfl

/-- Unfolding of the running upper bound. -/
theorem foldHi_cons (ax : AxisData) (rest : List AxisData) (t : ℚ) :
    foldHi (ax :: rest) t = foldHi rest (min t (slabHi ax)) := rfl

/-- The running lower bound only grows. -/
theorem le_foldLo (axes : List AxisData) (t : ℚ) : t ≤ foldLo axes t := by
  induction axes generalizing t with
  | nil => exact le_refl t
  | cons ax rest ih =>
    rw [foldLo_cons]
    exact le_trans (le_max_left _ _) (ih _)

/-- The running upper bound only shrinks. -/
theorem foldHi_le (axes : List AxisData) (t : ℚ) : foldHi axes t ≤ t := by
  induction axes generalizing t with
  | nil => exact le_refl t
  | cons ax rest ih =>
    rw [foldHi_cons]
    exact le_trans (ih _) (min_le_left _ _)

/-- The slab loop succeeds from a nonempty start interval exactly when the
fully tightened interval is still nonempty (since the running interval only
shrinks, every intermediate emptiness check then also passes). -/
theorem slabLoop_true_iff (axes : List AxisData) (t0 t1 : ℚ) (h : t0 < t1) :
    slabLoop axes t0 t1 = true ↔ foldLo axes t0 < foldHi axes t1 := by
  induction axes generalizing t0 t1 with
  | nil => simpa [slabLoop, foldLo, foldHi] using h
  | cons ax rest ih =>
    rw [slabLoop_cons, foldLo_cons, foldHi_cons]
    by_cases hle : min t1 (slabHi ax) ≤ max t0 (slabLo ax)
    · rw [if_pos hle]
      constructor
      · intro hfalse; cases hfalse
      · intro hlt
        exact absurd hlt (not_lt.mpr (le_trans (foldHi_le _ _)
          (le_trans hle (le_foldLo _ _))))
    · rw [if_neg hle]
      exact ih _ _ (not_le.mp hle)

/-- The box test fails on an empty or degenerate parameter interval. -/
theorem aabbHit_false_of_le (b : Aabb) (r : Ray) {t0 t1 : ℚ} (h : t1 ≤ t0) :
    Aabb.hit b r t0 t1 = false := by
  show slabLoop (b.axes r) t0 t1 = false
  rw [Aabb.axes, slabLoop_cons, if_pos]
  exact le_trans (min_le_left _ _) (le_trans h (le_max_left _ _))

/-- Characterisation of `Aabb::hit` in the rational model. -/
theorem aabbHit_true_iff (b : Aabb) (r : Ray) (t0 t1 : ℚ) :
    Aabb.hit b r t0 t1 = true ↔
      t0 < t1 ∧ foldLo (b.axes r) t0 < foldHi (b.axes r) t1 := by
  constructor
  · intro h
    rcases lt_or_le t0 t1 with hlt | hle
    · exact ⟨hlt, (slabLoop_true_iff _ _ _ hlt).mp h⟩
    · rw [aabbHit_false_of_le b r hle] at h; cases h
  · intro ⟨hlt, hfold⟩
    exact (slabLoop_true_iff _ _ _ hlt).mpr hfold

/-- Widening the slab makes the effective lower parameter smaller. -/
theorem slabLo_mono {mnI mxI mnO mxO o d : ℚ} (hmn : mnO ≤ mnI)
    (hmx : mxI ≤ mxO) : slabLo (mnO, mxO, o, d) ≤ slabLo (mnI, mxI, o, d) := by
  simp only [slabLo]
  by_cases h : (1 : ℚ)/d < 0
  · simp only [if_pos h]
    exact mul_le_mul_of_nonpos_right (sub_le_sub_right hmx o) h.le
  · simp only [if_neg h]
    exact mul_le_mul_of_nonneg_right (sub_le_sub_right hmn o) (not_lt.mp h)

/-- Widening the slab makes the effective upper parameter larger. -/
theorem slabHi_mono {mnI mxI mnO mxO o d : ℚ} (hmn : mnO ≤ mnI)
    (hmx : mxI ≤ mxO) : slabHi (mnI, mxI, o, d) ≤ slabHi (mnO, mxO, o, d) := by
  simp only [slabHi]
  by_cases h : (1 : ℚ)/d < 0
  · simp only [if_pos h]
    exact mul_le_mul_of_nonpos_right (sub_le_sub_right hmn o) h.le
  · simp only [if_neg h]
    exact mul_le_mul_of_nonneg_right (sub_le_sub_right hmx o) (not_lt.mp h)

/-- A larger box yields a smaller tightened lower bound. -/
theorem boxLo_mono {inner outer : Aabb} (hsub : inner.sub outer) (r : Ray)
    (t0 : ℚ) : foldLo (outer.axes r) t0 ≤ foldLo (inner.axes r) t0 := by
  obtain ⟨h1, h2, h3, h4, h5, h6⟩ := hsub
  simp only [Aabb.axes, foldLo, List.foldl]
  exact max_le_max (max_le_max (max_le_max (le_refl t0)
    (slabLo_mono h1 h4)) (slabLo_mono h2 h5)) (slabLo_mono h3 h6)

/-- A larger box yields a larger tightened upper bound. -/
theorem boxHi_mono {inner outer : Aabb} (hsub : inner.sub outer) (r : Ray)
    (t1 : ℚ) : foldHi (inner.axes r) t1 ≤ foldHi (outer.axes r) t1 := by
  obtain ⟨h1, h2, h3, h4, h5, h6⟩ := hsub
  simp only [Aabb.axes, foldHi, List.foldl]
  exact min_le_min (min_le_min (min_le_min (le_refl t1)
    (slabHi_mono h1 h4)) (slabHi_mono h2 h5)) (slabHi_mono h3 h6)

/-- A ray hitting a box also hits every enclosing box. -/
theorem aabbHit_mono {inner outer : Aabb} (hsub : inner.sub outer) (r : Ray)
    {t0 t1 : ℚ} (h : inner.hit r t0 t1 = true) : outer.hit r t0 t1 = true := by
  rw [aabbHit_true_iff] at h ⊢
  exact ⟨h.1, lt_of_le_of_lt (boxLo_mono hsub r t0)
    (lt_of_lt_of_le h.2 (boxHi_mono hsub r t1))⟩

/-- Box inclusion is reflexive. -/
theorem aabbSub_refl (a : Aabb) : a.sub a :=
  ⟨le_refl _, le_refl _, le_refl _, le_refl _, le_refl _, le_refl _⟩

/-- Box inclusion is transitive. -/
theorem aabbSub_trans {a b c : Aabb} (h1 : a.sub b) (h2 : b.sub c) : a.sub c := by
  obtain ⟨a1, a2, a3, a4, a5, a6⟩ := h1
  obtain ⟨b1, b2, b3, b4, b5, b6⟩ := h2
  exact ⟨le_trans b1 a1, le_trans b2 a2, le_trans b3 a3,
    le_trans a4 b4, le_trans a5 b5, le_trans a6 b6⟩

/-- The surrounding box contains its first argument. -/
theorem aabbSub_surrounding_left (a b : Aabb) :
    a.sub (Aabb.surroundingBox a b) :=
  ⟨min_le_left _ _, min_le_left _ _, min_le_left _ _,
   le_max_left _ _, le_max_left _ _, le_max_left _ _⟩

/-- The surrounding box contains its second argument. -/
theorem aabbSub_surrounding_right (a b : Aabb) :
    b.sub (Aabb.surroundingBox a b) :=
  ⟨min_le_right _ _, min_le_right _ _, min_le_right _ _,
   le_max_right _ _, le_max_right _ _, le_max_right _ _⟩

/-- Every leaf's box lies inside its BVH subtree's box — the containment the
constructor establishes by surrounding boxes pairwise up the tree. -/
theorem leaf_box_sub_bvhBox {obj : Leaf} :
    ∀ {T : BvhTree}, obj ∈ bvhLeaves T → obj.box.sub (bvhBox T) := by
  intro T
  induction T with
  | leaf o =>
    intro h
    simp [bvhLeaves] at h
    subst h
    exact aabbSub_refl _
  | node left right ihl ihr =>
    intro h
    rcases List.mem_append.mp h with h1 | h1
    · exact aabbSub_trans (ihl h1) (aabbSub_surrounding_left _ _)
    · exact aabbSub_trans (ihr h1) (aabbSub_surrounding_right _ _)

/-- C10 witness: two concrete sample indices of a concrete pixel. -/
theorem c10_witness :
    (mainPixelSamples (fun n => (n : ℚ)) 0 4 5 7 400 225)[1]? =
      (mainPixelSamples (fun n => (n : ℚ)) 0 4 5 7 400 225)[3]? :=
  c10_same_uv_for_all_samples (fun n => (n : ℚ)) 0 4 5 7 400 225 1 3
    (by norm_num) (by norm_num)

/-- A hit reported against a bound no larger than the unique nearest
parameter forces at least that parameter (widen the query, then apply
minimality). -/
theorem narrow_hit_t_ge {l : List Leaf} {r : Ray} {tMin tMax : ℚ} {A : Leaf}
    {recA : HitRec} (hun : UniqueNearest l r tMin tMax A recA)
    (hwf : ∀ a ∈ l, LeafWf a) {b : Leaf} (hb : b ∈ l) {τ : ℚ} {recB : HitRec}
    (hτ : τ ≤ tMax) (hhit : b.hitFn r tMin τ = some recB) :
    recA.t ≤ recB.t := by
  obtain ⟨rec2, hrec2, hle2⟩ := (hwf b hb).2.2.1 r tMin tMax τ recB hτ hhit
  exact le_trans (hun.minimal b hb rec2 hrec2) hle2

/-- A hit reported against a bound no larger than the unique nearest
parameter can only be the unique nearest object returning its own record. -/
theorem narrow_hit_forces {l : List Leaf} {r : Ray} {tMin tMax : ℚ} {A : Leaf}
    {recA : HitRec} (hun : UniqueNearest l r tMin tMax A recA)
    (hwf : ∀ a ∈ l, LeafWf a) {b : Leaf} (hb : b ∈ l) {τ : ℚ} {recB : HitRec}
    (hτ : τ ≤ recA.t) (hhit : b.hitFn r tMin τ = some recB) :
    b = A ∧ recB = recA := by
  have hAwf := (hwf A hun.mem).1 r tMin tMax recA hun.hit
  have hτmax : τ ≤ tMax := le_trans hτ hAwf.2
  obtain ⟨rec2, hrec2, hle2⟩ := (hwf b hb).2.2.1 r tMin tMax τ recB hτmax hhit
  have hwfb := (hwf b hb).1 r tMin τ recB hhit
  have h2 : rec2.t = recA.t :=
    le_antisymm (le_trans hle2 (le_trans hwfb.2 hτ)) (hun.minimal b hb rec2 hrec2)
  have hbA : b = A := hun.unique b hb rec2 hrec2 h2
  subst hbA
  have hAτle : recA.t ≤ τ := by
    rw [← h2]
    exact le_trans hle2 hwfb.2
  have hAτ := (hwf b hb).2.1 r tMin tMax τ recA hun.hit hAτle hτmax
  rw [hAτ] at hhit
  exact ⟨rfl, (Option.some_inj.mp hhit).symm⟩

/-- When no object hits, the list scan's fold never leaves its start state. -/
theorem listFold_none {l : List Leaf} {r : Ray} {tMin tMax : ℚ}
    (h : ∀ b ∈ l, b.hitFn r tMin tMax = none) :
    l.foldl (listStep r tMin) (false, tMax, dummyRec) =
      (false, tMax, dummyRec) := by
  induction l with
  | nil => rfl
  | cons b rest ih =>
    rw [List.foldl_cons]
    have hb := h b (List.mem_cons_self b rest)
    show rest.foldl (listStep r tMin) (listStep r tMin (false, tMax, dummyRec) b) = _
    rw [show listStep r tMin (false, tMax, dummyRec) b = (false, tMax, dummyRec) by
      simp [listStep, hb]]
    exact ih (fun b hb2 => h b (List.mem_cons_of_mem _ hb2))

/-- `HittableList::hit` over objects that all miss reports no hit. -/
theorem listHit_none {l : List Leaf} {r : Ray} {tMin tMax : ℚ}
    (h : ∀ b ∈ l, b.hitFn r tMin tMax = none) :
    listHit l r tMin tMax = none := by
  unfold listHit
  rw [listFold_none h]
  rfl

/-- Once the list scan reaches the unique nearest hit, later objects cannot
displace it: any hit they report against the narrowed bound is that same
record. -/
theorem listFold_locked {l : List Leaf} {r : Ray} {tMin tMax : ℚ} {A : Leaf}
    {recA : HitRec} (hun : UniqueNearest l r tMin tMax A recA)
    (hwf : ∀ a ∈ l, LeafWf a) :
    ∀ (post : List Leaf), (∀ b ∈ post, b ∈ l) →
      post.foldl (listStep r tMin) (true, recA.t, recA) =
        (true, recA.t, recA) := by
  intro post
  induction post with
  | nil => intro _; rfl
  | cons b rest ih =>
    intro hsub
    rw [List.foldl_cons]
    have hb : b ∈ l := hsub b (List.mem_cons_self b rest)
    have hstep : listStep r tMin (true, recA.t, recA) b = (true, recA.t, recA) := by
      unfold listStep
      rcases hcase : b.hitFn r tMin recA.t with _ | recB
      · rfl
      · obtain ⟨hbA, hrecB⟩ := narrow_hit_forces hun hwf hb (le_refl _) hcase
        simp [hrecB]
    rw [hstep]
    exact ih (fun c hc => hsub c (List.mem_cons_of_mem _ hc))

/-- Before the unique nearest hit is reached, the scan's shrinking
`closest_so_far` stays between the nearest parameter and the original bound. -/
theorem listFold_window {l : List Leaf} {r : Ray} {tMin tMax : ℚ} {A : Leaf}
    {recA : HitRec} (hun : UniqueNearest l r tMin tMax A recA)
    (hwf : ∀ a ∈ l, LeafWf a) :
    ∀ (pre : List Leaf), (∀ b ∈ pre, b ∈ l) → ∀ (st : Bool × ℚ × HitRec),
      recA.t ≤ st.2.1 → st.2.1 ≤ tMax →
      recA.t ≤ (pre.foldl (listStep r tMin) st).2.1 ∧
        (pre.foldl (listStep r tMin) st).2.1 ≤ tMax := by
  intro pre
  induction pre with
  | nil => intro _ st h1 h2; exact ⟨h1, h2⟩
  | cons b rest ih =>
    intro hsub st h1 h2
    rw [List.foldl_cons]
    have hb : b ∈ l := hsub b (List.mem_cons_self b rest)
    have hnext : recA.t ≤ (listStep r tMin st b).2.1 ∧
        (listStep r tMin st b).2.1 ≤ tMax := by
      unfold listStep
      rcases hcase : b.hitFn r tMin st.2.1 with _ | recB
      · exact ⟨h1, h2⟩
      · have hge := narrow_hit_t_ge hun hwf hb h2 hcase
        have hwfb := (hwf b hb).1 r tMin st.2.1 recB hcase
        exact ⟨hge, le_trans hwfb.2 h2⟩
    exact ih (fun c hc => hsub c (List.mem_cons_of_mem _ hc)) _ hnext.1 hnext.2

/-- `HittableList::hit` returns exactly the unique nearest hit's record. -/
theorem listHit_finds {l : List Leaf} {r : Ray} {tMin tMax : ℚ} {A : Leaf}
    {recA : HitRec} (hun : UniqueNearest l r tMin tMax A recA)
    (hwf : ∀ a ∈ l, LeafWf a) : listHit l r tMin tMax = some recA := by
  obtain ⟨pre, post, hsplit⟩ := List.append_of_mem hun.mem
  have hAwf := (hwf A hun.mem).1 r tMin tMax recA hun.hit
  unfold listHit
  rw [hsplit, List.foldl_append]
  have hpre := listFold_window hun hwf pre
    (fun b hb => by rw [hsplit]; exact List.mem_append_left _ hb)
    (false, tMax, dummyRec) hAwf.2 (le_refl _)
  rcases hst : pre.foldl (listStep r tMin) (false, tMax, dummyRec) with ⟨found, st2⟩
  rw [hst] at hpre
  rw [List.foldl_cons]
  have hstepA : listStep r tMin (found, st2) A = (true, recA.t, recA) := by
    unfold listStep
    have hAhit2 := (hwf A hun.mem).2.1 r tMin tMax st2.1 recA hun.hit hpre.1 hpre.2
    rw [hAhit2]
  rw [hstepA]
  rw [listFold_locked hun hwf post
    (fun b hb => by
      rw [hsplit]; exact List.mem_append_right _ (List.mem_cons_of_mem _ hb))]
  rfl

/-- `BvhNode::hit` over a subtree whose leaves all miss reports no hit. -/
theorem bvhHit_none {r : Ray} {tMin : ℚ} :
    ∀ (S : BvhTree) (τ : ℚ), (∀ b ∈ bvhLeaves S, b.hitFn r tMin τ = none) →
      bvhHit S r tMin τ = none := by
  intro S
  induction S with
  | leaf obj =>
    intro τ h
    exact h obj (by simp [bvhLeaves])
  | node L R ihl ihr =>
    intro τ h
    have hL := ihl τ (fun b hb => h b (List.mem_append_left _ hb))
    have hR := ihr τ (fun b hb => h b (List.mem_append_right _ hb))
    cases hbox : (Aabb.surroundingBox (bvhBox L) (bvhBox R)).hit r tMin τ with
    | false => simp [bvhHit, hbox]
    | true => simp [bvhHit, hbox, hL, hR]

/-- Every record `BvhNode::hit` returns is literally some leaf's hit result
against a bound no larger than the query's. -/
theorem bvhHit_trace {r : Ray} {tMin : ℚ} :
    ∀ (S : BvhTree), (∀ b ∈ bvhLeaves S, LeafWf b) → ∀ (τ : ℚ) (rec : HitRec),
      bvhHit S r tMin τ = some rec →
      ∃ b ∈ bvhLeaves S, ∃ τ2, τ2 ≤ τ ∧ b.hitFn r tMin τ2 = some rec := by
  intro S
  induction S with
  | leaf obj =>
    intro hwfS τ rec h
    exact ⟨obj, by simp [bvhLeaves], τ, le_refl _, h⟩
  | node L R ihl ihr =>
    intro hwfS τ rec h
    have hwfL : ∀ b ∈ bvhLeaves L, LeafWf b :=
      fun b hb => hwfS b (List.mem_append_left _ hb)
    have hwfR : ∀ b ∈ bvhLeaves R, LeafWf b :=
      fun b hb => hwfS b (List.mem_append_right _ hb)
    simp only [bvhHit] at h
    cases hbox : (Aabb.surroundingBox (bvhBox L) (bvhBox R)).hit r tMin τ with
    | false => rw [hbox] at h; simp at h
    | true =>
      rw [hbox] at h
      simp only [Bool.not_true, Bool.false_eq_true, if_false] at h
      rcases hL : bvhHit L r tMin τ with _ | lrec
      · simp only [hL] at h
        obtain ⟨b, hbmem, τ2, hτ2, hbhit⟩ := ihr hwfR τ rec h
        exact ⟨b, List.mem_append_right _ hbmem, τ2, hτ2, hbhit⟩
      · simp only [hL] at h
        obtain ⟨bL, hbLmem, τ2L, hτ2L, hbLhit⟩ := ihl hwfL τ lrec hL
        have hlrect : lrec.t ≤ τ2L :=
          ((hwfL bL hbLmem).1 r tMin τ2L lrec hbLhit).2
        rcases hR : bvhHit R r tMin lrec.t with _ | rrec
        · simp only [hR] at h
          obtain rfl := Option.some_inj.mp h
          exact ⟨bL, List.mem_append_left _ hbLmem, τ2L, hτ2L, hbLhit⟩
        · simp only [hR] at h
          obtain rfl := Option.some_inj.mp h
          obtain ⟨b, hbmem, τ2, hτ2, hbhit⟩ := ihr hwfR lrec.t rrec hR
          exact ⟨b, List.mem_append_right _ hbmem, τ2,
            le_trans hτ2 (le_trans hlrect hτ2L), hbhit⟩

/-- `BvhNode::hit` finds the unique nearest hit whenever it is queried over a
window that still contains it: the box pruning cannot cut it off (the leaf's
box reports a hit and is contained in every ancestor's box), a left-subtree
find survives the narrowed right query, and a left-subtree obstruction is
strictly farther so the right query window still contains the nearest hit. -/
theorem bvhHit_finds {l : List Leaf} {r : Ray} {tMin tMax : ℚ} {A : Leaf}
    {recA : HitRec} (hun : UniqueNearest l r tMin tMax A recA)
    (hwf : ∀ a ∈ l, LeafWf a) (hdx : r.direction.x ≠ 0)
    (hdy : r.direction.y ≠ 0) (hdz : r.direction.z ≠ 0) :
    ∀ (S : BvhTree), (∀ x ∈ bvhLeaves S, x ∈ l) → A ∈ bvhLeaves S →
      ∀ (τ : ℚ), recA.t ≤ τ → τ ≤ tMax → tMin < τ →
      bvhHit S r tMin τ = some recA := by
  intro S
  induction S with
  | leaf obj =>
    intro hsub hmem τ h1 h2 _h3
    have hobj : A = obj := by simpa [bvhLeaves] using hmem
    subst hobj
    exact (hwf A hun.mem).2.1 r tMin tMax τ recA hun.hit h1 h2
  | node L R ihl ihr =>
    intro hsub hmem τ h1 h2 h3
    have hAwf := (hwf A hun.mem).1 r tMin tMax recA hun.hit
    have hAτ : A.hitFn r tMin τ = some recA :=
      (hwf A hun.mem).2.1 r tMin tMax τ recA hun.hit h1 h2
    have hAbox : A.box.hit r tMin τ = true :=
      (hwf A hun.mem).2.2.2 r tMin τ recA hdx hdy hdz h3 hAτ
    have hbox : (Aabb.surroundingBox (bvhBox L) (bvhBox R)).hit r tMin τ = true :=
      aabbHit_mono (leaf_box_sub_bvhBox (T := .node L R) hmem) r hAbox
    simp only [bvhHit, hbox, Bool.not_true, Bool.false_eq_true, if_false]
    have hwfL : ∀ b ∈ bvhLeaves L, LeafWf b :=
      fun b hb => hwf b (hsub b (List.mem_append_left _ hb))
    have hwfR : ∀ b ∈ bvhLeaves R, LeafWf b :=
      fun b hb => hwf b (hsub b (List.mem_append_right _ hb))
    by_cases hAL : A ∈ bvhLeaves L
    · have hLres := ihl (fun x hx => hsub x (List.mem_append_left _ hx)) hAL τ h1 h2 h3
      simp only [hLres]
      rcases hR : bvhHit R r tMin recA.t with _ | rrec
      · simp only [hR]
      · obtain ⟨b, hbmem, τ2, hτ2, hbhit⟩ := bvhHit_trace R hwfR recA.t rrec hR
        obtain ⟨_, hrec⟩ := narrow_hit_forces hun hwf
          (hsub b (List.mem_append_right _ hbmem)) hτ2 hbhit
        simp only [hR, hrec]
    · have hAR : A ∈ bvhLeaves R := by
        rcases List.mem_append.mp hmem with h | h
        · exact absurd h hAL
        · exact h
      rcases hL : bvhHit L r tMin τ with _ | lrec
      · simp only [hL]
        exact ihr (fun x hx => hsub x (List.mem_append_right _ hx)) hAR τ h1 h2 h3
      · simp only [hL]
        obtain ⟨bL, hbLmem, τ2, hτ2, hbLhit⟩ := bvhHit_trace L hwfL τ lrec hL
        have hbLl : bL ∈ l := hsub bL (List.mem_append_left _ hbLmem)
        have hwfbL := (hwf bL hbLl).1 r tMin τ2 lrec hbLhit
        have hge : recA.t ≤ lrec.t :=
          narrow_hit_t_ge hun hwf hbLl (le_trans hτ2 h2) hbLhit
        have hne : recA.t ≠ lrec.t := by
          intro heq
          obtain ⟨rec2, hrec2, hle2⟩ := (hwf bL hbLl).2.2.1 r tMin tMax τ2 lrec
            (le_trans hτ2 h2) hbLhit
          have heq2 : rec2.t = recA.t :=
            le_antisymm (le_trans hle2 heq.symm.le) (hun.minimal bL hbLl rec2 hrec2)
          exact hAL ((hun.unique bL hbLl rec2 hrec2 heq2) ▸ hbLmem)
        have hlt : recA.t < lrec.t := lt_of_le_of_ne hge hne
        have hres := ihr (fun x hx => hsub x (List.mem_append_right _ hx)) hAR
          lrec.t hlt.le (le_trans (le_trans hwfbL.2 hτ2) h2)
          (lt_of_le_of_lt hAwf.1 hlt)
        simp only [hres]

/-- C1 counterexample: two coincident rectangles with different materials,
both hit at t = 5 by the same ray.  The BVH (built by the two-object branch
of `BvhNode::new`, whose comparator orders equal boxes as `Greater`) returns
the record of material 1 while the linear scan returns the record of
material 2: the parameters agree but the hits differ, so BVH traversal does
not always yield the same nearest hit as the brute-force scan. -/
theorem c1_counterexample_tie_breaks_differently :
    (bvhHit (bvhNewTwo cxRect1 cxRect2 0) cxRay (1/1000) 100).map HitRec.mat
      = some 1 ∧
    (listHit [cxRect1, cxRect2] cxRay (1/1000) 100).map HitRec.mat = some 2 ∧
    (bvhHit (bvhNewTwo cxRect1 cxRect2 0) cxRay (1/1000) 100).map HitRec.t =
      (listHit [cxRect1, cxRect2] cxRay (1/1000) 100).map HitRec.t ∧
    bvhHit (bvhNewTwo cxRect1 cxRect2 0) cxRay (1/1000) 100 ≠
      listHit [cxRect1, cxRect2] cxRay (1/1000) 100 := by
  refine ⟨?_, ?_, ?_, ?_⟩ <;>
    norm_num [bvhNewTwo, boxCompare, cxRect1, cxRect2, xyRectBox, bvhHit,
      bvhBox, Aabb.hit, Aabb.axes, Aabb.surroundingBox, slabLoop, cxRay,
      xyRectHit, createNormalFace, Ray.at, Vec3.dot, listHit, listStep,
      dummyRec]

/-- C1 (amended): for every scene of well-behaved hittables with bounding
boxes and every BVH over exactly those objects, intersecting through
`BvhNode::hit` yields the same result (same record: t, point, material) as
the brute-force `HittableList::hit` scan with the same `t_min`, `t_max`,
provided the ray's direction has no zero component (where the rational slab
model is exact) and the nearest hit, when one exists, is achieved by a
unique object — with coincident objects tied at the nearest parameter the
two traversals can return records of different objects, as the
counterexample shows. -/
theorem c1_bvh_matches_list (T : BvhTree) (l : List Leaf) (r : Ray)
    (tMin tMax : ℚ) (hdx : r.direction.x ≠ 0) (hdy : r.direction.y ≠ 0)
    (hdz : r.direction.z ≠ 0) (hlt : tMin < tMax)
    (hleaves : ∀ x, x ∈ bvhLeaves T ↔ x ∈ l) (hwf : ∀ a ∈ l, LeafWf a)
    (hcase : (∀ b ∈ l, b.hitFn r tMin tMax = none) ∨
      ∃ A recA, UniqueNearest l r tMin tMax A recA) :
    bvhHit T r tMin tMax = listHit l r tMin tMax := by
  rcases hcase with hnone | ⟨A, recA, hun⟩
  · rw [listHit_none hnone,
      bvhHit_none T tMax (fun b hb => hnone b ((hleaves b).mp hb))]
  · have hAwf := (hwf A hun.mem).1 r tMin tMax recA hun.hit
    rw [listHit_finds hun hwf,
      bvhHit_finds hun hwf hdx hdy hdz T (fun x hx => (hleaves x).mp hx)
        ((hleaves A).mpr hun.mem) tMax hAwf.2 (le_refl _) hlt]

/-- The padded box of the synthetic scene objects reports a hit for any
query window containing a parameter strictly inside (-10, 10). -/
theorem wBoxTen_hit {tMin tMax c : ℚ} (hc5 : tMin ≤ c) (hc : c ≤ tMax)
    (hlt : tMin < tMax) (hcb : -10 < c) (hcb2 : c < 10) :
    wBoxTen.hit wRay tMin tMax = true := by
  rw [aabbHit_true_iff]
  refine ⟨hlt, ?_⟩
  have hfoldlo : foldLo (wBoxTen.axes wRay) tMin = max tMin (-10) := by
    norm_num [Aabb.axes, foldLo, List.foldl, slabLo, wBoxTen, wRay, max_assoc]
  have hfoldhi : foldHi (wBoxTen.axes wRay) tMax = min tMax 10 := by
    norm_num [Aabb.axes, foldHi, List.foldl, slabHi, wBoxTen, wRay, min_assoc]
  rw [hfoldlo, hfoldhi]
  exact max_lt (lt_min hlt (lt_of_le_of_lt hc5 hcb2))
    (lt_min (lt_of_lt_of_le hcb hc) (by norm_num))

/-- Both synthetic scene objects are well behaved. -/
theorem wLeaf_gen_wf (c : ℚ) (recC : HitRec) (hct : recC.t = c)
    (hlo : -10 < c) (hhi : c < 10) :
    LeafWf ⟨fun r tMin tMax =>
      if r = wRay ∧ tMin ≤ c ∧ c ≤ tMax then some recC else none, wBoxTen⟩ := by
  refine ⟨?_, ?_, ?_, ?_⟩
  · intro r tMin tMax rec h
    simp only at h
    split_ifs at h with hc
    obtain rfl := Option.some_inj.mp h
    rw [hct]
    exact ⟨hc.2.1, hc.2.2⟩
  · intro r tMin tMax tMax2 rec h hle1 hle2
    simp only at h ⊢
    split_ifs at h with hc
    obtain rfl := Option.some_inj.mp h
    rw [hct] at hle1
    rw [if_pos ⟨hc.1, hc.2.1, hle1⟩]
  · intro r tMin tMax tMax2 rec hle h
    simp only at h ⊢
    split_ifs at h with hc
    obtain rfl := Option.some_inj.mp h
    refine ⟨recC, ?_, le_refl _⟩
    rw [if_pos ⟨hc.1, hc.2.1, le_trans hc.2.2 hle⟩]
  · intro r tMin tMax rec hdx hdy hdz hlt h
    simp only at h
    split_ifs at h with hc
    obtain ⟨hr, h5a, h5b⟩ := hc
    subst hr
    exact wBoxTen_hit h5a h5b hlt hlo hhi

/-- The first synthetic object is well behaved. -/
theorem wLeafA_wf : LeafWf wLeafA :=
  wLeaf_gen_wf 5 wRecA rfl (by norm_num) (by norm_num)

/-- The second synthetic object is well behaved. -/
theorem wLeafB_wf : LeafWf wLeafB :=
  wLeaf_gen_wf 7 wRecB rfl (by norm_num) (by norm_num)

/-- In the synthetic two-object scene the nearest hit (t = 5) is unique. -/
theorem w_unique : UniqueNearest [wLeafA, wLeafB] wRay 1 100 wLeafA wRecA := by
  refine ⟨by simp, ?_, ?_, ?_⟩
  · show (if wRay = wRay ∧ (1 : ℚ) ≤ 5 ∧ (5 : ℚ) ≤ 100 then some wRecA else none)
      = some wRecA
    rw [if_pos ⟨rfl, by norm_num, by norm_num⟩]
  · intro b hb recB hhit
    rcases show b = wLeafA ∨ b = wLeafB by simpa using hb with rfl | rfl
    · have h2 : (if wRay = wRay ∧ (1 : ℚ) ≤ 5 ∧ (5 : ℚ) ≤ 100 then some wRecA
          else none) = some recB := hhit
      rw [if_pos ⟨rfl, by norm_num, by norm_num⟩] at h2
      obtain rfl := Option.some_inj.mp h2
      exact le_refl _
    · have h2 : (if wRay = wRay ∧ (1 : ℚ) ≤ 7 ∧ (7 : ℚ) ≤ 100 then some wRecB
          else none) = some recB := hhit
      rw [if_pos ⟨rfl, by norm_num, by norm_num⟩] at h2
      obtain rfl := Option.some_inj.mp h2
      show (5 : ℚ) ≤ 7
      norm_num
  · intro b hb recB hhit heq
    rcases show b = wLeafA ∨ b = wLeafB by simpa using hb with rfl | rfl
    · rfl
    · have h2 : (if wRay = wRay ∧ (1 : ℚ) ≤ 7 ∧ (7 : ℚ) ≤ 100 then some wRecB
          else none) = some recB := hhit
      rw [if_pos ⟨rfl, by norm_num, by norm_num⟩] at h2
      obtain rfl := Option.some_inj.mp h2
      exact absurd heq (by norm_num [wRecB, wRecA])

/-- C1 witness: the amended equivalence at a concrete two-object scene with
a unique nearest hit. -/
theorem c1_witness :
    bvhHit (BvhTree.node (.leaf wLeafA) (.leaf wLeafB)) wRay 1 100 =
      listHit [wLeafA, wLeafB] wRay 1 100 :=
  c1_bvh_matches_list (BvhTree.node (.leaf wLeafA) (.leaf wLeafB))
    [wLeafA, wLeafB] wRay 1 100 (by norm_num [wRay]) (by norm_num [wRay])
    (by norm_num [wRay]) (by norm_num)
    (by intro x; simp [bvhLeaves])
    (by
      intro a ha
      rcases show a = wLeafA ∨ a = wLeafB by simpa using ha with rfl | rfl
      · exact wLeafA_wf
      · exact wLeafB_wf)
    (Or.inr ⟨wLeafA, wRecA, w_unique⟩)

end RTrace
